import Mathlib

set_option maxRecDepth 8000

/-!
Verification of the CryptoTrack CLI (src/cryptotrack.py) against its
specification.  The Python program is shallowly embedded: numeric values
are modelled as rationals, Python string formatting as explicit digit
manipulation, HTTP calls as an explicit outcome datatype, and the watch
refresh loop as a fuel-indexed function over a per-cycle environment
that supplies the fetch outcome and the operator-interrupt points.
-/

namespace CryptoTrack

/-! ## Python number formatting

Model of the format specifications used by the program: f-strings of the
form x:,.2f, x:.4f, x:.8f and x:,.0f.  Python rounds half to even; the
thousands separator groups the integer part in threes.  The computation
is carried out on the numerator and denominator of the (reduced)
rational so that everything reduces in the kernel.
-/

/-- Round the fraction num / den to the nearest natural number, ties to
even (the rounding of Python float formatting), for den > 0. -/
def divRoundHalfEven (num den : Nat) : Nat :=
  let f := num / den
  let r := num % den
  if 2 * r < den then f
  else if den < 2 * r then f + 1
  else if f % 2 = 0 then f else f + 1

/-- Exactly k decimal digits of n (taken modulo 10 ^ k), most significant
first, zero padded to width k. -/
def fracDigits : Nat → Nat → List Char
  | 0, _ => []
  | k + 1, n => fracDigits k (n / 10) ++ [Nat.digitChar (n % 10)]

/-- Chunks of three, used for thousands grouping. -/
def chunk3 : List Char → List (List Char)
  | [] => []
  | [a] => [[a]]
  | [a, b] => [[a, b]]
  | a :: b :: c :: rest => [a, b, c] :: chunk3 rest

/-- Decimal digits of n with a comma every three digits from the right,
as in the Python format code with a comma. -/
def commaSep (n : Nat) : String :=
  String.mk (List.intercalate [','] (((chunk3 (Nat.repr n).data.reverse).map List.reverse).reverse))

/-- Python fixed-point formatting of a rational: k decimal places,
rounded half to even, optional thousands separators, sign taken from the
value.  k = 0 prints no decimal point, as in Python. -/
def fixed (k : Nat) (q : ℚ) (sep : Bool) : String :=
  let n : ℕ := divRoundHalfEven (q.num.natAbs * 10 ^ k) q.den
  let ip := n / 10 ^ k
  let fp := n % 10 ^ k
  (if q.num < 0 then "-" else "") ++ (if sep then commaSep ip else Nat.repr ip) ++
    (if k = 0 then "" else "." ++ String.mk (fracDigits k fp))

/-! ## Formatter (CryptoTracker.format_price / format_change) -/

/-- CryptoTracker.format_price, lines 66-73 of src/cryptotrack.py. -/
def format_price (price : ℚ) : String :=
  if price ≥ 1000 then "$" ++ fixed 2 price true
  else if price ≥ 1 then "$" ++ fixed 4 price false
  else "$" ++ fixed 8 price false

/-- CryptoTracker.format_change, lines 75-82 of src/cryptotrack.py.
The escape sequences are the literal ANSI color codes of the source. -/
def format_change (change : ℚ) : String :=
  if change > 0 then "\x1b[92m+" ++ fixed 2 change false ++ "%\x1b[0m"
  else if change < 0 then "\x1b[91m" ++ fixed 2 change false ++ "%\x1b[0m"
  else fixed 2 change false ++ "%"

example : format_price 1500 = "$1,500.00" := by decide
example : format_price 1 = "$1.0000" := by decide
example : format_price (mkRat 1 2) = "$0.50000000" := by decide
example : format_price (-1500) = "$-1500.00000000" := by decide
example : format_change (mkRat (-16) 5) = "\x1b[91m-3.20%\x1b[0m" := by decide
example : format_change 0 = "0.00%" := by decide
example : fixed 0 1234567 true = "1,234,567" := by decide

/-! ## String helpers mirroring the Python string methods used -/

/-- Python str.upper, on the ASCII identifiers the program handles. -/
def upperStr (s : String) : String := String.mk (s.data.map Char.toUpper)

/-- Python left-justified padding to width w, as in the format code with
a less-than sign: pad with spaces on the right, never truncate. -/
def ljust (w : Nat) (s : String) : String :=
  s ++ String.mk (List.replicate (w - s.length) ' ')

/-! ## Data model and HTTP outcomes

A JSON response body is typed per endpoint.  An HTTP call either raises
a requests.RequestException (connection error, timeout, or the
raise_for_status of a 4xx/5xx status) or returns a status and a parsed
body.  requests.raise_for_status raises exactly for statuses >= 400.
-/

/-- One asset record of the simple/price endpoint: the price in the
vs_currency and the optional 24h-change field. -/
structure QuoteData where
  usd : ℚ
  usd_24h_change : Option ℚ
  deriving DecidableEq, Repr

/-- The simple/price payload: a JSON object mapping asset ids to records. -/
abbrev PricePayload := List (String × QuoteData)

/-- Outcome of one HTTP GET, as seen by the except-clause of the client:
either a raised requests.RequestException carrying a message, or a
response with a status code and a parsed JSON body. -/
inductive HttpOutcome (α : Type) where
  | exn (msg : String)
  | resp (status : Nat) (body : α)
  deriving DecidableEq, Repr

/-- CryptoTracker.get_crypto_price, lines 19-34 of src/cryptotrack.py.
Returns the error line it prints (if any) together with the value the
Python function returns: the parsed payload on success, None after a
RequestException (which raise_for_status throws for any status >= 400). -/
def get_crypto_price (r : HttpOutcome PricePayload) : Option String × Option PricePayload :=
  match r with
  | .exn msg => (some ("Error fetching data: " ++ msg), none)
  | .resp status body =>
      if 400 ≤ status then (some ("Error fetching data: " ++ Nat.repr status ++ " Error"), none)
      else (none, some body)

/-- One record of the search endpoint's coins list. -/
structure SearchRecord where
  id : String
  name : String
  symbol : String
  deriving DecidableEq, Repr

/-- CryptoTracker.search_crypto, lines 54-64 of src/cryptotrack.py.
The body is the value of the coins field when present (response.json()
.get with a default of the empty list); the result list is truncated
with the slice [:10].  Returns the printed error line (if any) and the
returned value. -/
def search_crypto (r : HttpOutcome (Option (List SearchRecord))) :
    Option String × Option (List SearchRecord) :=
  match r with
  | .exn msg => (some ("Error searching: " ++ msg), none)
  | .resp status coins =>
      if 400 ≤ status then (some ("Error searching: " ++ Nat.repr status ++ " Error"), none)
      else (none, some ((coins.getD []).take 10))

/-! ## Renderer (CryptoTracker.display_top_list) -/

/-- One record of the coins/markets endpoint, with the fields
display_top_list reads; the .get fields may be absent. -/
structure MarketEntry where
  symbol : String
  name : String
  current_price : ℚ
  price_change_percentage_24h : Option ℚ
  market_cap : Option ℚ
  deriving DecidableEq, Repr

/-- The name column: crypto name cut at 18 characters, a two-character
ellipsis appended exactly when the name is longer than 18 (line 106). -/
def truncName (name : String) : String :=
  if name.length > 18 then String.mk (name.data.take 18) ++ ".." else name

/-- One data row of the table, line 111 of src/cryptotrack.py. -/
def rowOf (c : MarketEntry) : String :=
  ljust 8 (upperStr c.symbol) ++ " " ++ ljust 20 (truncName c.name) ++ " " ++
    ljust 15 (format_price c.current_price) ++ " " ++
    ljust 12 (format_change (c.price_change_percentage_24h.getD 0)) ++ " " ++
    ljust 15 ("$" ++ fixed 0 (c.market_cap.getD 0) true)

/-- The header line printed at line 101 (with its leading newline). -/
def topHeader : String :=
  "\n" ++ ljust 8 "Symbol" ++ " " ++ ljust 20 "Name" ++ " " ++ ljust 15 "Price" ++ " " ++
    ljust 12 "24h Change" ++ " " ++ ljust 15 "Market Cap"

/-- The separator line printed at line 102: 75 dashes. -/
def topSep : String := String.mk (List.replicate 75 '-')

/-- CryptoTracker.display_top_list, lines 99-111 of src/cryptotrack.py:
the sequence of lines printed.  The header and separator are printed
unconditionally, then one row per entry in the given order. -/
def display_top_list (cryptos : List MarketEntry) : List String :=
  topHeader :: topSep :: cryptos.map rowOf

/-! ## RefreshLoop (CryptoTracker.watch_crypto, lines 113-131)

The loop body is: call get_crypto_price; if it returned a payload that
contains the asset id, print the overwritten watch line; then
time.sleep(interval); repeat forever.  The only handler around the loop
catches KeyboardInterrupt and prints the termination notice.  A
KeyboardInterrupt can be delivered while the HTTP request is blocking
(it is not a RequestException, so it escapes get_crypto_price) or while
the sleep is blocking; both are points of the cycle in the model.
time.sleep raises ValueError on a negative argument, and that exception
is not caught by anything in watch_crypto, so it aborts the loop.

The environment assigns to every cycle index the interrupt points hit
in that cycle, the outcome of the fetch, and the wall-clock string that
datetime.now().strftime produces.  The loop function is driven by fuel:
with fuel n it executes at most n cycles and reports still running when
the fuel ends, so an infinite execution is the limit over all fuels.
-/

/-- What the environment does to one cycle of the refresh loop. -/
structure CycleEnv where
  /-- KeyboardInterrupt delivered while the fetch is blocking. -/
  interruptAtFetch : Bool
  /-- Outcome of the HTTP GET of this cycle (if the fetch runs). -/
  fetch : HttpOutcome PricePayload
  /-- KeyboardInterrupt delivered while the sleep is blocking. -/
  interruptAtSleep : Bool
  /-- The formatted current time of this cycle. -/
  now : String

/-- One line written to stdout from inside the loop, tagged by which
print statement produced it. -/
inductive OutputLine where
  | fetchError (msg : String)
  | watchLine (s : String)
  | notice
  deriving DecidableEq, Repr

/-- Result of running the refresh loop for a bounded number of cycles:
out is everything printed, slept the list of completed sleep durations.
stopped is the state after the KeyboardInterrupt handler ran (the
Stopped state of the spec), crashed an uncaught exception aborting the
loop, running the loop still in its Running state when the fuel ends. -/
inductive LoopResult where
  | stopped (out : List OutputLine) (slept : List Int)
  | crashed (out : List OutputLine) (slept : List Int)
  | running (out : List OutputLine) (slept : List Int)
  deriving DecidableEq, Repr

def LoopResult.out : LoopResult → List OutputLine
  | .stopped o _ => o
  | .crashed o _ => o
  | .running o _ => o

def LoopResult.slept : LoopResult → List Int
  | .stopped _ s => s
  | .crashed _ s => s
  | .running _ s => s

def LoopResult.isStopped : LoopResult → Bool
  | .stopped _ _ => true
  | _ => false

def LoopResult.isCrashed : LoopResult → Bool
  | .crashed _ _ => true
  | _ => false

def LoopResult.isRunning : LoopResult → Bool
  | .running _ _ => true
  | _ => false

def OutputLine.isWatchLine : OutputLine → Bool
  | .watchLine _ => true
  | _ => false

def OutputLine.isNotice : OutputLine → Bool
  | .notice => true
  | _ => false

/-- Number of termination notices in a list of printed lines. -/
def noticeCount (l : List OutputLine) : Nat := (l.filter OutputLine.isNotice).length

/-- The in-place watch line printed at line 127 of src/cryptotrack.py. -/
def renderWatchLine (cryptoId : String) (now : String) (d : QuoteData) : String :=
  "\r[" ++ now ++ "] " ++ upperStr cryptoId ++ ": " ++ format_price d.usd ++
    " (" ++ format_change (d.usd_24h_change.getD 0) ++ ")"

/-- What one non-interrupted cycle prints before its sleep, lines
120-127: the error line of get_crypto_price if the fetch failed, the
watch line if the returned payload contains the asset id, nothing
otherwise.  The truthiness test on price_data agrees with the lookup
because an empty payload contains no id. -/
def watchCycleOut (cryptoId : String) (e : CycleEnv) : List OutputLine :=
  match get_crypto_price e.fetch with
  | (err, pd) =>
      (match err with
        | some m => [OutputLine.fetchError m]
        | none => []) ++
      (match pd with
        | some payload =>
            match payload.lookup cryptoId with
            | some d => [OutputLine.watchLine (renderWatchLine cryptoId e.now d)]
            | none => []
        | none => [])

/-- The while-True loop of watch_crypto under environment env, running
at most fuel cycles; env 0 is the current cycle and the recursive call
shifts the environment. -/
def watchLoop (cryptoId : String) (interval : Int) : (Nat → CycleEnv) → Nat → LoopResult
  | _, 0 => .running [] []
  | env, fuel + 1 =>
      if (env 0).interruptAtFetch then .stopped [OutputLine.notice] []
      else if interval < 0 then .crashed (watchCycleOut cryptoId (env 0)) []
      else if (env 0).interruptAtSleep then
        .stopped (watchCycleOut cryptoId (env 0) ++ [OutputLine.notice]) []
      else
        match watchLoop cryptoId interval (fun j => env (j + 1)) fuel with
        | .stopped out s => .stopped (watchCycleOut cryptoId (env 0) ++ out) (interval :: s)
        | .crashed out s => .crashed (watchCycleOut cryptoId (env 0) ++ out) (interval :: s)
        | .running out s => .running (watchCycleOut cryptoId (env 0) ++ out) (interval :: s)

/-- CryptoTracker.watch_crypto, lines 113-131: the two banner lines it
prints before entering the loop, and the loop itself.  The interval is
used exactly as passed in. -/
def watch_crypto (cryptoId : String) (interval : Int) (env : Nat → CycleEnv) (fuel : Nat) :
    List String × LoopResult :=
  (["Watching " ++ upperStr cryptoId ++ " - Press Ctrl+C to stop",
    "Update interval: " ++ Int.repr interval ++ " seconds"],
   watchLoop cryptoId interval env fuel)

/-- The watch branch of main, lines 215-216: the CLI arguments are
passed to watch_crypto unchanged (argparse accepts any integer for the
interval flag and its default is 30). -/
def main_watch (argsWatch : String) (argsInterval : Int) (env : Nat → CycleEnv) (fuel : Nat) :
    List String × LoopResult :=
  watch_crypto argsWatch argsInterval env fuel

/-! ## The price branch of main (lines 198-206)

price_command returns everything printed: the error line of the client
if the fetch raised, then either the two quote lines (the 24h line only
when the change field is present) or the not-found line.  The payload
truthiness test of line 200 agrees with the lookup as above.
-/

def price_command (cryptoId : String) (r : HttpOutcome PricePayload) : List String :=
  match get_crypto_price r with
  | (err, pd) =>
      (match err with
        | some m => [m]
        | none => []) ++
      (match pd with
        | some payload =>
            match payload.lookup cryptoId with
            | some d =>
                [upperStr cryptoId ++ ": $" ++ fixed 8 d.usd true] ++
                  (match d.usd_24h_change with
                    | some c => ["24h Change: " ++ format_change c]
                    | none => [])
            | none => ["Cryptocurrency not found."]
        | none => ["Cryptocurrency not found."])

/-! ## CommandDispatcher (CryptoTracker.run_interactive, lines 133-177)

One iteration of the read-eval loop: the entered line is stripped and
lowercased, then dispatched on its leading keyword.  The watch branch
(lines 169-171) passes everything after the first six characters as the
asset id and calls watch_crypto with its default interval of 30; it
never parses an interval argument.  The top branch takes its optional
count from the second whitespace-separated word when that word is all
digits, and otherwise uses 10.
-/

/-- The command a line of input is mapped to. -/
inductive Action where
  | quit
  | top (limit : Nat)
  | search (query : String)
  | price (id : String)
  | watch (id : String) (interval : Int)
  | unknown
  deriving DecidableEq, Repr

/-- Python str.split with no argument: split on runs of whitespace,
dropping empty words. -/
def wordsAux : List Char → List Char → List (List Char)
  | [], acc => if acc.isEmpty then [] else [acc.reverse]
  | c :: cs, acc =>
      if c.isWhitespace then
        if acc.isEmpty then wordsAux cs [] else acc.reverse :: wordsAux cs []
      else wordsAux cs (c :: acc)

def words (l : List Char) : List (List Char) := wordsAux l []

/-- Python str.isdigit on the ASCII input the dispatcher handles. -/
def isDigits (l : List Char) : Bool := !l.isEmpty && l.all Char.isDigit

/-- Decimal value of a digit string. -/
def natOfDigits (l : List Char) : Nat := l.foldl (fun a c => a * 10 + (c.toNat - 48)) 0

/-- Dispatch on the stripped, lowercased command line, following the
elif chain of lines 142-173. -/
def dispatchCmd (cmd : List Char) : Action :=
  if cmd = "quit".data ∨ cmd = "exit".data ∨ cmd = "q".data then .quit
  else if "top".data.isPrefixOf cmd then
    match words cmd with
    | _ :: p1 :: _ => .top (if isDigits p1 then natOfDigits p1 else 10)
    | _ => .top 10
  else if "search ".data.isPrefixOf cmd then .search (String.mk (cmd.drop 7))
  else if "price ".data.isPrefixOf cmd then .price (String.mk (cmd.drop 6))
  else if "watch ".data.isPrefixOf cmd then .watch (String.mk (cmd.drop 6)) 30
  else .unknown

/-- One iteration of run_interactive on the raw input line: line 140
strips and lowercases the line before the dispatch. -/
def run_interactive_command (line : String) : Action :=
  dispatchCmd
    (((line.data.dropWhile Char.isWhitespace).reverse.dropWhile Char.isWhitespace).reverse.map
      Char.toLower)

example : run_interactive_command "watch bitcoin 5" = .watch "bitcoin 5" 30 := by decide
example : run_interactive_command "  QUIT " = .quit := by decide
example : run_interactive_command "top 3" = .top 3 := by decide
example : run_interactive_command "watch" = .unknown := by decide

/-! ## General helper lemmas -/

theorem strAppend_assoc (a b c : String) : a ++ b ++ c = a ++ (b ++ c) := by
  apply String.ext
  simp [String.data_append]

theorem strAppend_empty (a : String) : a ++ "" = a := by
  apply String.ext
  simp [String.data_append]

/-- The decimal literal 0.5 as a raw rational. -/
theorem halfEq : (0.5 : ℚ) = mkRat 1 2 := by
  rw [Rat.mkRat_eq_div]; norm_num

/-- The decimal literal -3.2 as a raw rational. -/
theorem negThreePointTwoEq : (-3.2 : ℚ) = mkRat (-16) 5 := by
  rw [Rat.mkRat_eq_div]; norm_num

/-! ## Claims about the Formatter -/

/-- C5: format_price selects one of three precision tiers by the value:
at least 1000 gives 2 decimal places with thousands separators, between
1 and 1000 gives 4 decimal places, below 1 gives 8 decimal places, all
prefixed with the dollar sign; concretely format_price 1500 is
$1,500.00, format_price 1 is $1.0000 and format_price 0.5 is
$0.50000000. -/
theorem c5_format_price_tiers :
    (∀ p : ℚ, 1000 ≤ p → format_price p = "$" ++ fixed 2 p true) ∧
    (∀ p : ℚ, 1 ≤ p → p < 1000 → format_price p = "$" ++ fixed 4 p false) ∧
    (∀ p : ℚ, p < 1 → format_price p = "$" ++ fixed 8 p false) ∧
    (∀ p : ℚ, ∃ rest : String, format_price p = "$" ++ rest) ∧
    format_price 1500 = "$1,500.00" ∧
    format_price 1 = "$1.0000" ∧
    format_price (0.5 : ℚ) = "$0.50000000" := by
  refine ⟨?_, ?_, ?_, ?_, by decide, by decide, ?_⟩
  · intro p hp
    simp only [format_price]
    split_ifs with h1 <;> first | linarith | rfl
  · intro p h1 h2
    simp only [format_price]
    split_ifs with g1 <;> first | linarith | rfl
  · intro p hp
    simp only [format_price]
    split_ifs with g1 g2 <;> first | linarith | rfl
  · intro p
    simp only [format_price]
    split_ifs <;> exact ⟨_, rfl⟩
  · rw [halfEq]; decide

/-- Witness for C5: the first tier applied to 2500, with the resulting
string evaluated. -/
theorem c5_format_price_tiers_witness :
    format_price 2500 = "$" ++ fixed 2 2500 true ∧ format_price 2500 = "$2,500.00" :=
  ⟨c5_format_price_tiers.1 2500 (by norm_num), by decide⟩

/-- C8: format_change produces a sign-prefixed 2-decimal percentage,
wrapped in the green indicator when positive, the red indicator when
negative, and unstyled when exactly zero; the plain numeric percentage
string is a segment of the output for every input; format_change of
-3.2 contains -3.20 percent and format_change 0 is exactly 0.00 percent
with no sign character. -/
theorem c8_format_change_styles :
    (∀ c : ℚ, 0 < c → format_change c = "\x1b[92m+" ++ fixed 2 c false ++ "%\x1b[0m") ∧
    (∀ c : ℚ, c < 0 → format_change c = "\x1b[91m" ++ fixed 2 c false ++ "%\x1b[0m") ∧
    format_change 0 = "0.00%" ∧
    (∀ c : ℚ, ∃ pre suf : String, format_change c = pre ++ fixed 2 c false ++ ("%" ++ suf)) ∧
    (∃ pre suf : String, format_change (-3.2 : ℚ) = pre ++ "-3.20%" ++ suf) ∧
    '+' ∉ (format_change 0).data ∧ '-' ∉ (format_change 0).data := by
  refine ⟨?_, ?_, by decide, ?_, ?_, by decide, by decide⟩
  · intro c hc
    simp only [format_change]
    split_ifs with h1 <;> first | linarith | rfl
  · intro c hc
    simp only [format_change]
    split_ifs with h1 <;> first | linarith | rfl
  · intro c
    simp only [format_change]
    split_ifs with h1 h2
    · exact ⟨"\x1b[92m+", "\x1b[0m", rfl⟩
    · exact ⟨"\x1b[91m", "\x1b[0m", rfl⟩
    · exact ⟨"", "", rfl⟩
  · exact ⟨"\x1b[91m", "\x1b[0m", by rw [negThreePointTwoEq]; decide⟩

/-- Witness for C8: the negative style at -1, with the resulting string
evaluated. -/
theorem c8_format_change_styles_witness :
    format_change (-1) = "\x1b[91m" ++ fixed 2 (-1) false ++ "%\x1b[0m" ∧
    format_change (-1) = "\x1b[91m-1.00%\x1b[0m" :=
  ⟨c8_format_change_styles.2.1 (-1) (by norm_num), by decide⟩

/-- C10: the tier comparisons of format_price are on the signed value,
so every strictly negative price falls into the 8-decimal tier; in
particular -1500 formats as $-1500.00000000 and not in the
thousands-separator 2-decimal tier. -/
theorem c10_negative_prices_eight_decimals :
    (∀ p : ℚ, p < 0 → format_price p = "$" ++ fixed 8 p false) ∧
    format_price (-1500) = "$-1500.00000000" ∧
    format_price (-1500) ≠ "$" ++ fixed 2 (-1500) true := by
  refine ⟨?_, by decide, by decide⟩
  intro p hp
  simp only [format_price]
  split_ifs with h1 h2 <;> first | linarith | rfl

/-- Witness for C10: the negative tier at -2, with the resulting string
evaluated. -/
theorem c10_negative_prices_eight_decimals_witness :
    format_price (-2) = "$" ++ fixed 8 (-2) false ∧ format_price (-2) = "$-2.00000000" :=
  ⟨c10_negative_prices_eight_decimals.1 (-2) (by norm_num), by decide⟩

/-! ## Claims about search and the table renderer -/

/-- C6: search_crypto truncates the upstream coins list to its first 10
elements in their original order, returns the whole list when it has at
most 10 elements, and maps an empty upstream list to an empty result
rather than an error. -/
theorem c6_search_truncates_to_ten :
    ∀ l : List SearchRecord,
      ((search_crypto (.resp 200 (some l))).2 = some (l.take 10) ∧
       (10 < l.length → (l.take 10).length = 10) ∧
       (l.length ≤ 10 → l.take 10 = l) ∧
       (∀ i : Nat, i < 10 → (l.take 10)[i]? = l[i]?) ∧
       (search_crypto (.resp 200 (some ([] : List SearchRecord)))).2 = some [] ∧
       (search_crypto (.resp 200 (some ([] : List SearchRecord)))).2 ≠ none) := by
  intro l
  refine ⟨rfl, ?_, List.take_of_length_le, ?_, rfl, by simp [search_crypto]⟩
  · intro h
    simp [List.length_take, Nat.min_eq_left (Nat.le_of_lt h)]
  · intro i h
    rw [List.getElem?_take_of_lt h]

/-- Witness for C6: a 15-element upstream list yields exactly the first
10 results. -/
theorem c6_search_truncates_to_ten_witness :
    ((search_crypto (.resp 200 (some (List.replicate 15 (SearchRecord.mk "a" "n" "s"))))).2 =
      some ((List.replicate 15 (SearchRecord.mk "a" "n" "s")).take 10)) ∧
    ((List.replicate 15 (SearchRecord.mk "a" "n" "s")).take 10).length = 10 :=
  ⟨(c6_search_truncates_to_ten (List.replicate 15 (SearchRecord.mk "a" "n" "s"))).1,
   (c6_search_truncates_to_ten (List.replicate 15 (SearchRecord.mk "a" "n" "s"))).2.1
     (by decide)⟩

/-- C7 counterexample: for the empty sequence display_top_list does not
emit nothing; it still prints the header and separator lines. -/
theorem c7_as_stated_false : display_top_list [] ≠ [] := by
  simp [display_top_list]

/-- C7 amended: display_top_list emits the header line and the
separator line unconditionally, followed by exactly one formatted row
per entry in the given order with no re-sorting; for the empty sequence
it emits exactly the header and separator. -/
theorem c7_table_rows :
    ∀ l : List MarketEntry,
      (display_top_list l = topHeader :: topSep :: l.map rowOf ∧
       (display_top_list l).length = l.length + 2 ∧
       display_top_list [] = [topHeader, topSep]) := by
  intro l
  refine ⟨rfl, ?_, rfl⟩
  simp [display_top_list]

/-! ## Claims about the refresh loop -/

/-- A cycle whose fetch fails in the sense of the watch loop: the
client returned None (network error) or a payload in which the watched
asset id is absent. -/
def fetchFails (cryptoId : String) (r : HttpOutcome PricePayload) : Bool :=
  match (get_crypto_price r).2 with
  | none => true
  | some payload => (payload.lookup cryptoId).isNone

/-- An environment in which every fetch raises and no interrupt ever
arrives. -/
def allFailEnv : Nat → CycleEnv :=
  fun _ => ⟨false, .exn "Connection refused", false, "12:00:00"⟩

/-- An environment with a single interrupt, during the sleep of cycle
one; every fetch raises. -/
def interruptAtOneEnv : Nat → CycleEnv :=
  fun i => ⟨false, .exn "Connection refused", i == 1, "12:00:00"⟩

theorem noticeCount_append (a b : List OutputLine) :
    noticeCount (a ++ b) = noticeCount a + noticeCount b := by
  simp [noticeCount, List.filter_append]

theorem watchCycleOut_no_notice (cryptoId : String) (e : CycleEnv) :
    noticeCount (watchCycleOut cryptoId e) = 0 := by
  unfold watchCycleOut
  rcases h : get_crypto_price e.fetch with ⟨err, pd⟩
  rcases err with _ | m <;> rcases pd with _ | payload <;>
    simp [noticeCount, OutputLine.isNotice] <;>
    rcases payload.lookup cryptoId with _ | d <;>
    simp [noticeCount, OutputLine.isNotice]

theorem watchCycleOut_no_render_of_fetchFails (cryptoId : String) (e : CycleEnv)
    (hfail : fetchFails cryptoId e.fetch = true) :
    ∀ l ∈ watchCycleOut cryptoId e, l.isWatchLine = false := by
  intro l hl
  unfold watchCycleOut at hl
  unfold fetchFails at hfail
  rcases h : get_crypto_price e.fetch with ⟨err, pd⟩
  rw [h] at hl hfail
  rcases err with _ | m <;> rcases pd with _ | payload <;> simp at hl
  · have hlk : payload.lookup cryptoId = none := by
      simpa [Option.isNone_iff_eq_none] using hfail
    rw [hlk] at hl
    simp at hl
  · subst hl; rfl
  · have hlk : payload.lookup cryptoId = none := by
      simpa [Option.isNone_iff_eq_none] using hfail
    rw [hlk] at hl
    simp at hl
    subst hl; rfl

/-- One-step unfolding of the loop through a cycle that is neither
interrupted nor crashing. -/
theorem watchLoop_cons (cryptoId : String) (interval : Int) (env : Nat → CycleEnv) (n : Nat)
    (hf : (env 0).interruptAtFetch = false) (hs : (env 0).interruptAtSleep = false)
    (hneg : ¬interval < 0) :
    watchLoop cryptoId interval env (n + 1) =
      match watchLoop cryptoId interval (fun j => env (j + 1)) n with
      | .stopped out s => .stopped (watchCycleOut cryptoId (env 0) ++ out) (interval :: s)
      | .crashed out s => .crashed (watchCycleOut cryptoId (env 0) ++ out) (interval :: s)
      | .running out s => .running (watchCycleOut cryptoId (env 0) ++ out) (interval :: s) := by
  simp only [watchLoop]
  rw [hf, hs]
  simp [hneg]

/-- A run of the loop over interrupt-free cycles stays in the Running
state, sleeps once per cycle for exactly the given interval, and, when
every fetch of the run fails, never prints a watch line. -/
theorem watchLoop_benign_running (cryptoId : String) (interval : Int) (hint : 0 ≤ interval) :
    ∀ (fuel : Nat) (env : Nat → CycleEnv),
      (∀ i, (env i).interruptAtFetch = false ∧ (env i).interruptAtSleep = false) →
      ((watchLoop cryptoId interval env fuel).isRunning = true ∧
       (watchLoop cryptoId interval env fuel).slept = List.replicate fuel interval ∧
       ((∀ i, fetchFails cryptoId (env i).fetch = true) →
         ∀ l ∈ (watchLoop cryptoId interval env fuel).out, l.isWatchLine = false)) := by
  intro fuel
  induction fuel with
  | zero =>
      intro env hben
      refine ⟨rfl, rfl, ?_⟩
      intro hfail l hl
      simp [watchLoop, LoopResult.out] at hl
  | succ n ih =>
      intro env hben
      obtain ⟨hf, hs⟩ := hben 0
      have hneg : ¬interval < 0 := not_lt.mpr hint
      obtain ⟨ih1, ih2, ih3⟩ := ih (fun j => env (j + 1)) (fun i => hben (i + 1))
      rcases hrec : watchLoop cryptoId interval (fun j => env (j + 1)) n with ⟨o, s⟩ | ⟨o, s⟩ | ⟨o, s⟩
      · rw [hrec] at ih1; exact absurd ih1 (by simp [LoopResult.isRunning])
      · rw [hrec] at ih1; exact absurd ih1 (by simp [LoopResult.isRunning])
      · have heq : watchLoop cryptoId interval env (n + 1) =
            .running (watchCycleOut cryptoId (env 0) ++ o) (interval :: s) := by
          rw [watchLoop_cons cryptoId interval env n hf hs hneg, hrec]
        rw [hrec] at ih2 ih3
        refine ⟨by rw [heq]; rfl, ?_, ?_⟩
        · rw [heq]
          simp only [LoopResult.slept] at ih2 ⊢
          rw [List.replicate_succ, ih2]
        · intro hfail l hl
          rw [heq] at hl
          simp only [LoopResult.out] at hl
          rcases List.mem_append.mp hl with h1 | h2
          · exact watchCycleOut_no_render_of_fetchFails cryptoId (env 0) (hfail 0) l h1
          · exact ih3 (fun i => hfail (i + 1)) l h2

/-- The loop reaches the Stopped state only if some cycle within the
run was interrupted. -/
theorem watchLoop_stopped_has_interrupt (cryptoId : String) (interval : Int) :
    ∀ (fuel : Nat) (env : Nat → CycleEnv),
      (watchLoop cryptoId interval env fuel).isStopped = true →
      ∃ i, i < fuel ∧
        ((env i).interruptAtFetch = true ∨ (env i).interruptAtSleep = true) := by
  intro fuel
  induction fuel with
  | zero =>
      intro env h
      simp [watchLoop, LoopResult.isStopped] at h
  | succ n ih =>
      intro env h
      by_cases hf : (env 0).interruptAtFetch = true
      · exact ⟨0, Nat.succ_pos n, Or.inl hf⟩
      · have hf' : (env 0).interruptAtFetch = false := by simpa using hf
        by_cases hs : (env 0).interruptAtSleep = true
        · exact ⟨0, Nat.succ_pos n, Or.inr hs⟩
        · have hs' : (env 0).interruptAtSleep = false := by simpa using hs
          by_cases hneg : interval < 0
          · have heq : watchLoop cryptoId interval env (n + 1) =
                .crashed (watchCycleOut cryptoId (env 0)) [] := by
              simp only [watchLoop]
              rw [hf']
              simp [hneg]
            rw [heq] at h
            simp [LoopResult.isStopped] at h
          · rw [watchLoop_cons cryptoId interval env n hf' hs' hneg] at h
            rcases hrec : watchLoop cryptoId interval (fun j => env (j + 1)) n with
              ⟨o, s⟩ | ⟨o, s⟩ | ⟨o, s⟩ <;> rw [hrec] at h
            · obtain ⟨i, hi, hit⟩ := ih (fun j => env (j + 1)) (by rw [hrec]; rfl)
              exact ⟨i + 1, Nat.succ_lt_succ hi, hit⟩
            · simp [LoopResult.isStopped] at h
            · simp [LoopResult.isStopped] at h

/-- The loop prints the termination notice exactly once when it reaches
the Stopped state and never otherwise. -/
theorem watchLoop_one_notice (cryptoId : String) (interval : Int) :
    ∀ (fuel : Nat) (env : Nat → CycleEnv),
      noticeCount (watchLoop cryptoId interval env fuel).out =
        if (watchLoop cryptoId interval env fuel).isStopped = true then 1 else 0 := by
  intro fuel
  induction fuel with
  | zero =>
      intro env
      simp [watchLoop, noticeCount, LoopResult.isStopped, LoopResult.out]
  | succ n ih =>
      intro env
      by_cases hf : (env 0).interruptAtFetch = true
      · have heq : watchLoop cryptoId interval env (n + 1) =
            .stopped [OutputLine.notice] [] := by
          simp only [watchLoop]
          rw [hf]
          simp
        rw [heq]
        simp [noticeCount, LoopResult.out, LoopResult.isStopped, OutputLine.isNotice]
      · have hf' : (env 0).interruptAtFetch = false := by simpa using hf
        by_cases hneg : interval < 0
        · have heq : watchLoop cryptoId interval env (n + 1) =
              .crashed (watchCycleOut cryptoId (env 0)) [] := by
            simp only [watchLoop]
            rw [hf']
            simp [hneg]
          rw [heq]
          simp [LoopResult.isStopped, LoopResult.out, watchCycleOut_no_notice]
        · by_cases hs : (env 0).interruptAtSleep = true
          · have heq : watchLoop cryptoId interval env (n + 1) =
                .stopped (watchCycleOut cryptoId (env 0) ++ [OutputLine.notice]) [] := by
              simp only [watchLoop]
              rw [hf', hs]
              simp [hneg]
            rw [heq]
            simp only [LoopResult.isStopped, LoopResult.out]
            rw [noticeCount_append, watchCycleOut_no_notice]
            simp [noticeCount, OutputLine.isNotice]
          · have hs' : (env 0).interruptAtSleep = false := by simpa using hs
            have ihs := ih (fun j => env (j + 1))
            rw [watchLoop_cons cryptoId interval env n hf' hs' hneg]
            rcases hrec : watchLoop cryptoId interval (fun j => env (j + 1)) n with
              ⟨o, s⟩ | ⟨o, s⟩ | ⟨o, s⟩ <;> rw [hrec] at ihs <;>
              simp [LoopResult.isStopped, LoopResult.out, noticeCount_append,
                watchCycleOut_no_notice, LoopResult.isStopped] at ihs ⊢ <;>
              exact ihs

/-- After the first interrupted cycle the loop result is settled: any
amount of further fuel gives the same Stopped result, so the loop
terminates at that cycle and never runs again. -/
theorem watchLoop_stabilizes (cryptoId : String) (interval : Int) (hint : 0 ≤ interval) :
    ∀ (k : Nat) (env : Nat → CycleEnv) (fuel : Nat), k < fuel →
      (∀ j, j < k → (env j).interruptAtFetch = false ∧ (env j).interruptAtSleep = false) →
      ((env k).interruptAtFetch = true ∨ (env k).interruptAtSleep = true) →
      (watchLoop cryptoId interval env fuel = watchLoop cryptoId interval env (k + 1) ∧
       (watchLoop cryptoId interval env (k + 1)).isStopped = true) := by
  have hneg : ¬interval < 0 := not_lt.mpr hint
  intro k
  induction k with
  | zero =>
      intro env fuel hlt hpre hk
      obtain ⟨m, rfl⟩ : ∃ m, fuel = m + 1 := ⟨fuel - 1, by omega⟩
      by_cases hf : (env 0).interruptAtFetch = true
      · have h1 : watchLoop cryptoId interval env (m + 1) =
            .stopped [OutputLine.notice] [] := by
          simp only [watchLoop]
          rw [hf]
          simp
        have h2 : watchLoop cryptoId interval env 1 =
            .stopped [OutputLine.notice] [] := by
          simp only [watchLoop]
          rw [hf]
          simp
        rw [h1, h2]
        exact ⟨rfl, rfl⟩
      · have hf' : (env 0).interruptAtFetch = false := by simpa using hf
        have hs : (env 0).interruptAtSleep = true := by
          rcases hk with h | h
          · exact absurd h hf
          · exact h
        have h1 : watchLoop cryptoId interval env (m + 1) =
            .stopped (watchCycleOut cryptoId (env 0) ++ [OutputLine.notice]) [] := by
          simp only [watchLoop]
          rw [hf', hs]
          simp [hneg]
        have h2 : watchLoop cryptoId interval env 1 =
            .stopped (watchCycleOut cryptoId (env 0) ++ [OutputLine.notice]) [] := by
          simp only [watchLoop]
          rw [hf', hs]
          simp [hneg]
        rw [h1, h2]
        exact ⟨rfl, rfl⟩
  | succ k ih =>
      intro env fuel hlt hpre hk
      obtain ⟨m, rfl⟩ : ∃ m, fuel = m + 1 := ⟨fuel - 1, by omega⟩
      obtain ⟨hf, hs⟩ := hpre 0 (Nat.succ_pos k)
      obtain ⟨ihEq, ihStop⟩ :=
        ih (fun j => env (j + 1)) m (by omega) (fun j hj => hpre (j + 1) (by omega)) hk
      constructor
      · rw [watchLoop_cons cryptoId interval env m hf hs hneg,
          watchLoop_cons cryptoId interval env (k + 1) hf hs hneg, ihEq]
      · rw [watchLoop_cons cryptoId interval env (k + 1) hf hs hneg]
        rcases hrec : watchLoop cryptoId interval (fun j => env (j + 1)) (k + 1) with
          ⟨o, s⟩ | ⟨o, s⟩ | ⟨o, s⟩ <;> rw [hrec] at ihStop
        · rfl
        · simp [LoopResult.isStopped] at ihStop
        · simp [LoopResult.isStopped] at ihStop

/-- C1 counterexample: the claim as stated fails on the code in two
ways.  A network-error cycle is not silent: with interval 30 and a
fetch that raises, the single cycle prints the error line of
get_crypto_price, so its output is not empty.  And the claim holds for
every interval only if the sleep cannot fail: with interval -1 the
first time.sleep raises ValueError, which nothing catches, so the loop
crashes out of the Running state without any cancellation. -/
theorem c1_as_stated_false :
    (watchLoop "bitcoin" 30 allFailEnv 1).out =
      [OutputLine.fetchError "Error fetching data: Connection refused"] ∧
    (watchLoop "bitcoin" 30 allFailEnv 1).out ≠ [] ∧
    (watchLoop "bitcoin" (-1) allFailEnv 1).isCrashed = true := by decide

/-- C1 amended: for every asset id and nonnegative interval, when no
cycle is interrupted and every fetch fails (raises, or returns a
payload lacking the asset id), the loop never prints a watch line
(though a failing fetch prints its own error diagnostic), stays in the
Running state through any number of cycles, and completes one sleep of
exactly the interval per cycle. -/
theorem c1_failed_cycles_stay_running :
    ∀ (cryptoId : String) (interval : Int) (env : Nat → CycleEnv) (fuel : Nat),
      0 ≤ interval →
      (∀ i, (env i).interruptAtFetch = false ∧ (env i).interruptAtSleep = false) →
      (∀ i, fetchFails cryptoId (env i).fetch = true) →
      ((watchLoop cryptoId interval env fuel).isRunning = true ∧
       (∀ l ∈ (watchLoop cryptoId interval env fuel).out, l.isWatchLine = false) ∧
       (watchLoop cryptoId interval env fuel).slept = List.replicate fuel interval) := by
  intro cryptoId interval env fuel hint hben hfail
  obtain ⟨h1, h2, h3⟩ := watchLoop_benign_running cryptoId interval hint fuel env hben
  exact ⟨h1, h3 hfail, h2⟩

/-- Witness for C1: three all-failing uninterrupted cycles at interval
30 leave the loop running with three full sleeps. -/
theorem c1_failed_cycles_stay_running_witness :
    (watchLoop "bitcoin" 30 allFailEnv 3).isRunning = true ∧
    (watchLoop "bitcoin" 30 allFailEnv 3).slept = List.replicate 3 30 :=
  ⟨(c1_failed_cycles_stay_running "bitcoin" 30 allFailEnv 3 (by decide)
      (fun i => ⟨rfl, rfl⟩) (fun i => rfl)).1,
   (c1_failed_cycles_stay_running "bitcoin" 30 allFailEnv 3 (by decide)
      (fun i => ⟨rfl, rfl⟩) (fun i => rfl)).2.2⟩

/-- C2: the loop reaches the Stopped state only when some cycle of the
run receives the operator interrupt; it prints the termination notice
exactly once when stopped and never otherwise; and once the first
interrupt arrives in cycle k (all earlier cycles uninterrupted, with a
nonnegative interval), the loop is stopped within that cycle and any
longer run gives the identical settled result, so it never re-enters
the Running state. -/
theorem c2_stop_only_on_cancellation :
    ∀ (cryptoId : String) (interval : Int) (env : Nat → CycleEnv) (fuel : Nat),
      (((watchLoop cryptoId interval env fuel).isStopped = true →
         ∃ i, i < fuel ∧
           ((env i).interruptAtFetch = true ∨ (env i).interruptAtSleep = true)) ∧
       (noticeCount (watchLoop cryptoId interval env fuel).out =
         if (watchLoop cryptoId interval env fuel).isStopped = true then 1 else 0) ∧
       (∀ k, 0 ≤ interval → k < fuel →
         (∀ j, j < k → (env j).interruptAtFetch = false ∧ (env j).interruptAtSleep = false) →
         ((env k).interruptAtFetch = true ∨ (env k).interruptAtSleep = true) →
         ((watchLoop cryptoId interval env fuel).isStopped = true ∧
          watchLoop cryptoId interval env fuel = watchLoop cryptoId interval env (k + 1)))) := by
  intro cryptoId interval env fuel
  refine ⟨watchLoop_stopped_has_interrupt cryptoId interval fuel env,
    watchLoop_one_notice cryptoId interval fuel env, ?_⟩
  intro k hint hlt hpre hk
  obtain ⟨hEq, hStop⟩ := watchLoop_stabilizes cryptoId interval hint k env fuel hlt hpre hk
  exact ⟨by rw [hEq]; exact hStop, hEq⟩

/-- Witness for C2: an interrupt in the sleep of cycle one stops a
three-cycle run at cycle one, with exactly one notice printed. -/
theorem c2_stop_only_on_cancellation_witness :
    ((watchLoop "bitcoin" 30 interruptAtOneEnv 3).isStopped = true ∧
     watchLoop "bitcoin" 30 interruptAtOneEnv 3 = watchLoop "bitcoin" 30 interruptAtOneEnv 2) ∧
    noticeCount (watchLoop "bitcoin" 30 interruptAtOneEnv 3).out = 1 :=
  ⟨(c2_stop_only_on_cancellation "bitcoin" 30 interruptAtOneEnv 3).2.2 1 (by decide)
      (by decide)
      (by
        intro j hj
        have hj0 : j = 0 := by omega
        subst hj0
        exact ⟨rfl, rfl⟩)
      (Or.inr rfl),
    by decide⟩

/-- C3 counterexample: the interval is neither rejected nor normalized
to a minimum of one second.  With interval 0 the loop runs with
zero-second sleeps, and with interval -1 the first sleep call raises,
so the sleep can fail. -/
theorem c3_as_stated_false :
    (watch_crypto "bitcoin" 0 allFailEnv 2).2.slept = [0, 0] ∧
    (watch_crypto "bitcoin" (-1) allFailEnv 1).2.isCrashed = true := by decide

/-- C3 amended: watch_crypto and the main watch branch start the loop
with the interval exactly as given; on interrupt-free cycles a
nonnegative interval is slept unchanged once per cycle (so a zero
interval gives zero-second sleeps), and a negative interval makes the
first sleep call fail, crashing the loop. -/
theorem c3_interval_passed_through :
    ∀ (cryptoId : String) (interval : Int) (env : Nat → CycleEnv) (fuel : Nat),
      (∀ i, (env i).interruptAtFetch = false ∧ (env i).interruptAtSleep = false) →
      ((watch_crypto cryptoId interval env fuel).2 = watchLoop cryptoId interval env fuel ∧
       (main_watch cryptoId interval env fuel).2 = watchLoop cryptoId interval env fuel ∧
       (0 ≤ interval →
         (watch_crypto cryptoId interval env fuel).2.slept = List.replicate fuel interval) ∧
       (interval < 0 → 1 ≤ fuel →
         (watch_crypto cryptoId interval env fuel).2.isCrashed = true)) := by
  intro cryptoId interval env fuel hben
  refine ⟨rfl, rfl, ?_, ?_⟩
  · intro hint
    exact (watchLoop_benign_running cryptoId interval hint fuel env hben).2.1
  · intro hneg hfuel
    obtain ⟨m, rfl⟩ : ∃ m, fuel = m + 1 := ⟨fuel - 1, by omega⟩
    obtain ⟨hf, _⟩ := hben 0
    show (watchLoop cryptoId interval env (m + 1)).isCrashed = true
    have heq : watchLoop cryptoId interval env (m + 1) =
        .crashed (watchCycleOut cryptoId (env 0)) [] := by
      simp only [watchLoop]
      rw [hf]
      simp [hneg]
    rw [heq]
    rfl

/-- Witness for C3: interval 5 over two interrupt-free cycles is slept
as given, and interval -1 crashes the first cycle. -/
theorem c3_interval_passed_through_witness :
    (watch_crypto "eth" 5 allFailEnv 2).2.slept = List.replicate 2 5 ∧
    (watch_crypto "eth" (-1) allFailEnv 1).2.isCrashed = true :=
  ⟨(c3_interval_passed_through "eth" 5 allFailEnv 2 (fun i => ⟨rfl, rfl⟩)).2.2.1 (by decide),
   (c3_interval_passed_through "eth" (-1) allFailEnv 1 (fun i => ⟨rfl, rfl⟩)).2.2.2
     (by decide) (by decide)⟩

/-! ## Claims about error classification and the dispatcher -/

/-- C4: a fetch whose HTTP request succeeds but whose payload lacks the
requested asset id is reported as not found, with no network-error
diagnostic, while a transport failure prints the network-error line;
the client returns Some payload in the first case and None in the
second, so the caller can distinguish the two outcomes. -/
theorem c4_missing_id_is_not_found :
    ∀ (cryptoId : String) (payload : PricePayload) (msg : String),
      payload.lookup cryptoId = none →
      (price_command cryptoId (.resp 200 payload) = ["Cryptocurrency not found."] ∧
       price_command cryptoId (.exn msg) =
         ["Error fetching data: " ++ msg, "Cryptocurrency not found."] ∧
       (get_crypto_price (.resp 200 payload)).2 = some payload ∧
       (get_crypto_price (.exn msg)).2 = none ∧
       some payload ≠ (none : Option PricePayload)) := by
  intro cryptoId payload msg h
  refine ⟨?_, rfl, rfl, rfl, by simp⟩
  simp [price_command, get_crypto_price, h]

/-- Witness for C4: the empty payload for bitcoin is classified as not
found while a raised request error is classified as a network error. -/
theorem c4_missing_id_is_not_found_witness :
    price_command "bitcoin" (.resp 200 []) = ["Cryptocurrency not found."] ∧
    price_command "bitcoin" (.exn "timed out") =
      ["Error fetching data: " ++ "timed out", "Cryptocurrency not found."] :=
  ⟨(c4_missing_id_is_not_found "bitcoin" [] "timed out" rfl).1,
   (c4_missing_id_is_not_found "bitcoin" [] "timed out" rfl).2.1⟩

/-- C9 counterexample: the interactive line watch bitcoin 5 does not
start the loop for bitcoin with interval 5; the dispatcher passes the
whole remainder of the line as the asset id and always uses the
default interval 30. -/
theorem c9_as_stated_false :
    run_interactive_command "watch bitcoin 5" = Action.watch "bitcoin 5" 30 ∧
    Action.watch "bitcoin 5" 30 ≠ Action.watch "bitcoin" 5 := by decide

/-- C9 amended: an interactive command starting with the watch keyword
and a space starts the refresh loop with everything after the first six
characters as the asset id and always with the default interval of 30;
no supplied interval is ever parsed. -/
theorem c9_watch_dispatch :
    (∀ rest : List Char,
      dispatchCmd ('w' :: 'a' :: 't' :: 'c' :: 'h' :: ' ' :: rest) =
        Action.watch (String.mk rest) 30) ∧
    run_interactive_command "watch bitcoin" = Action.watch "bitcoin" 30 ∧
    run_interactive_command "watch bitcoin 5" = Action.watch "bitcoin 5" 30 := by
  refine ⟨?_, by decide, by decide⟩
  intro rest
  simp [dispatchCmd, List.isPrefixOf]

end CryptoTrack
